import Mathlib

/-!
Shallow embedding of the `useForm` hook (src/index.ts, with the generic
variant in src/unnamed/part_000) and proofs of the specified properties.

The field store and the error store are JavaScript objects with string
keys; they are embedded as insertion-ordered association lists with
distinct keys.  Actions are runtime records carrying a string `type`
tag, matching the `switch (action.type)` dispatch in the reducers.
-/

set_option maxHeartbeats 1000000

namespace UseForm

/-- The `FormFieldOptions` union type from src/index.ts. -/
inductive FormFieldOptions where
  | none
  | email
  | password
  | passwordConfirmation
  | firstName
  | lastName
  deriving DecidableEq

/-- The `validation` record of a field: `type`, `customError?`, `optional?`.
`customError` is `Option String` (absent = `undefined`); `optional` is a
`Bool` where `false` also stands for an absent (hence falsy) flag. -/
structure Validation where
  type : FormFieldOptions
  customError : Option String
  optional : Bool
  deriving DecidableEq

/-- One entry of the `Fields` record: `blurred?`, `value`, `validation`.
`blurred = false` also stands for an absent (falsy) flag. -/
structure Field where
  blurred : Bool
  value : String
  validation : Validation
  deriving DecidableEq

/-- The field store: a JavaScript object keyed by field identifiers,
embedded as an insertion-ordered association list. -/
abbrev FieldsT := List (String × Field)

/-- The error store: field identifier to error string, empty = valid. -/
abbrev ErrorsT := List (String × String)

/-- A dispatched action at runtime: a record with a string `type` tag and
the payload attributes used by the reducers (`field`, `value`, `error`).
Attributes not present on a given action shape are the empty string. -/
structure RawAction where
  type : String
  field : String
  value : String
  error : String
  deriving DecidableEq

/-- First-match lookup `obj[k]` on an association list, `none` = absent. -/
def getEntry {α : Type} : List (String × α) → String → Option α
  | [], _ => Option.none
  | p :: rest, k => if p.1 = k then some p.2 else getEntry rest k

/-- The spread update `{...obj, [k]: v}`: replaces the entry at `k` in
place when the key is present, otherwise appends it at the end. -/
def setEntry {α : Type} : List (String × α) → String → α → List (String × α)
  | [], k, v => [(k, v)]
  | p :: rest, k, v => if p.1 = k then (k, v) :: rest else p :: setEntry rest k v

/-- The spread update `{...obj, [k]: {...obj[k], ...}}` for a key of the
store (the action types address `keyof Fields`): rewrites the entry at
`k` with `g`, leaving position, other entries and absent keys alone. -/
def mapEntry : List (String × Field) → String → (Field → Field) → List (String × Field)
  | [], _, _ => []
  | p :: rest, k, g => if p.1 = k then (k, g p.2) :: rest else p :: mapEntry rest k g

/-- The characters removed by `String.prototype.trim` (JS WhiteSpace and
LineTerminator code points). -/
def jsWhitespace (c : Char) : Bool :=
  c == Char.ofNat 9 || c == Char.ofNat 10 || c == Char.ofNat 11 || c == Char.ofNat 12 ||
  c == Char.ofNat 13 || c == ' ' || c == Char.ofNat 160 || c == Char.ofNat 8232 ||
  c == Char.ofNat 8233 || c == Char.ofNat 65279

/-- `value.trim()`: strips leading and trailing whitespace. -/
def strTrim (s : String) : String :=
  String.mk (((s.data.dropWhile jsWhitespace).reverse.dropWhile jsWhitespace).reverse)

/-- The `errorsReducer` from src/index.ts: `UPDATE_ERROR` writes
`action.error` at `action.field`; any other tag is the identity. -/
def errorsReducer (state : ErrorsT) (action : RawAction) : ErrorsT :=
  if action.type = "UPDATE_ERROR" then setEntry state action.field action.error
  else state

/-- The `fieldsReducer` from src/index.ts: `UPDATE_VALUE` stores the
trimmed value, `BLUR_INPUT` sets `blurred`, any other tag is the
identity. -/
def fieldsReducer (state : FieldsT) (action : RawAction) : FieldsT :=
  if action.type = "UPDATE_VALUE" then
    mapEntry state action.field (fun f => { f with value := strTrim action.value })
  else if action.type = "BLUR_INPUT" then
    mapEntry state action.field (fun f => { f with blurred := true })
  else state

/-- JavaScript `a || b` on an optional error string: the fallback is used
when `customError` is absent or empty (falsy). -/
def jsStringOr (c : Option String) (d : String) : String :=
  match c with
  | some s => if s = "" then d else s
  | Option.none => d

/-- Modelled from the spec: the external validator library's
`isLength(value, {min, max})`, true iff the length lies in `[min, max]`.
The library is a black-box collaborator, not part of this repository. -/
def isLength (s : String) (lo hi : Nat) : Bool :=
  decide (lo ≤ s.length ∧ s.length ≤ hi)

/-- ASCII letter, both cases: the class `[a-z]` under the `/i` flag. -/
def isAlphaChar (c : Char) : Bool :=
  (decide ('a' ≤ c) && decide (c ≤ 'z')) || (decide ('A' ≤ c) && decide (c ≤ 'Z'))

/-- The class of trailing first-name characters under `/i`. -/
def firstNameClass (c : Char) : Bool :=
  isAlphaChar c || c == ' ' || c == '.' || c == Char.ofNat 39 || c == '-'

/-- The class of trailing last-name characters under `/i` (adds comma). -/
def lastNameClass (c : Char) : Bool :=
  firstNameClass c || c == ','

/-- Anchored match of a regex of shape `C1+C2+`: some split into a
nonempty prefix of `C1` characters and a nonempty suffix of `C2`
characters covers the whole string. -/
def matchOnePlusOnePlus (c1 c2 : Char → Bool) (s : String) : Bool :=
  (List.range s.data.length).any fun i =>
    decide (1 ≤ i) && decide (i < s.data.length) &&
    (s.data.take i).all c1 && (s.data.drop i).all c2

/-- Anchored match of a regex of shape `C1+C2*` (the src/unnamed/part_000
variant): nonempty `C1` prefix, possibly empty `C2` suffix. -/
def matchOnePlusStar (c1 c2 : Char → Bool) (s : String) : Bool :=
  (List.range (s.data.length + 1)).any fun i =>
    decide (1 ≤ i) && decide (i ≤ s.data.length) &&
    (s.data.take i).all c1 && (s.data.drop i).all c2

/-- The error string the validation pass of src/index.ts computes for one
field: the body of the `forEach` in `validate`, minus the dispatch.
`ie` abstracts the external `validator.isEmail`.  `formState` is read for
the `passwordConfirmation` lookup of the field keyed `"password"`
(optional chaining: an absent field compares as `undefined`, never equal
to a string value). -/
def computeError (ie : String → Bool) (formState : FieldsT) (field : Field) : String :=
  if field.validation.optional then ""
  else
    match field.validation.type with
    | FormFieldOptions.email =>
        if field.value.length = 0 then "Please provide an email"
        else if ie field.value = false then
          jsStringOr field.validation.customError "Please provide a valid email"
        else ""
    | FormFieldOptions.password =>
        if isLength field.value 6 128 then ""
        else jsStringOr field.validation.customError
          "Please provide a password of at least 6 characters"
    | FormFieldOptions.passwordConfirmation =>
        if (getEntry formState "password").map Field.value ≠ some field.value then
          jsStringOr field.validation.customError "Passwords do not match"
        else ""
    | FormFieldOptions.firstName =>
        if field.value.length = 0 then
          jsStringOr field.validation.customError "Please provide a first name."
        else if matchOnePlusOnePlus isAlphaChar firstNameClass field.value = false then
          jsStringOr field.validation.customError firstNamePatternMsg
        else ""
    | FormFieldOptions.lastName =>
        if field.value.length = 0 then
          jsStringOr field.validation.customError "Please provide a last name."
        else if matchOnePlusOnePlus isAlphaChar lastNameClass field.value = false then
          jsStringOr field.validation.customError lastNamePatternMsg
        else ""
    | FormFieldOptions.none => ""
where
  firstNamePatternMsg : String :=
    "Must start with an alpha character, and consist of alpha and \" " ++
      String.mk [Char.ofNat 39] ++ " \", \" . \", or \" - \" characters"
  lastNamePatternMsg : String :=
    "Must start with an alpha character, and consist of alpha and \" " ++
      String.mk [Char.ofNat 39] ++ " \", \" . \", \" , \", or \" - \" characters"

/-- One `validate` pass over the remaining field entries, threading the
error store through the issued `UPDATE_ERROR` dispatches. -/
def validateAux (ie : String → Bool) (formState : FieldsT) :
    List (String × Field) → ErrorsT → ErrorsT
  | [], es => es
  | p :: rest, es =>
      validateAux ie formState rest
        (errorsReducer es ⟨"UPDATE_ERROR", p.1, "", computeError ie formState p.2⟩)

/-- The `validate` callback of `useForm`: for each key of the field store
in iteration order, dispatch one `UPDATE_ERROR` with that field's
computed error. -/
def validate (ie : String → Bool) (formState : FieldsT) (errorState : ErrorsT) : ErrorsT :=
  validateAux ie formState formState errorState

/-- `formState[key].validation.optional` as read by `formInvalid`; an
absent key would throw in JS and is mapped to `false` here (reachable
states never hit it, see the key-set invariant). -/
def optionalOf (fs : FieldsT) (k : String) : Bool :=
  match getEntry fs k with
  | some f => f.validation.optional
  | Option.none => false

/-- The derived `formInvalid` boolean: some error-store key holds a
truthy (non-empty) string while its field is not optional. -/
def formInvalid (fs : FieldsT) (es : ErrorsT) : Bool :=
  es.any fun p => (p.2 != "") && !(optionalOf fs p.1)

/-- The per-instance state owned by the hook that the claims range over:
the field store and the error store. -/
structure HookState where
  formState : FieldsT
  errorState : ErrorsT
  deriving DecidableEq

/-- The initial error store built in `useForm`: one empty-string entry
per key of the initial field store, in key order. -/
def initErrors (init : FieldsT) : ErrorsT :=
  init.map fun p => (p.1, "")

/-- One dispatch step: the fields reducer processes the action, then the
`useEffect` runs a `validate` pass against the new field store. -/
def stepState (ie : String → Bool) (s : HookState) (a : RawAction) : HookState :=
  let fs := fieldsReducer s.formState a
  { formState := fs, errorState := validate ie fs s.errorState }

/-- Reachable hook states: the freshly initialized pair, closed under
dispatch steps (an unrecognized action step also covers the mount-time
`validate` effect, since it leaves the field store unchanged). -/
inductive Reachable (ie : String → Bool) (init : FieldsT) : HookState → Prop where
  | base : Reachable ie init { formState := init, errorState := initErrors init }
  | step : ∀ s a, Reachable ie init s → Reachable ie init (stepState ie s a)

/-- The per-field error of the src/unnamed/part_000 variant of
`validate`: identical to `computeError` except that the first/last name
regexes use `*` instead of `+` for the trailing class. -/
def computeErrorV (ie : String → Bool) (formState : FieldsT) (field : Field) : String :=
  if field.validation.optional then ""
  else
    match field.validation.type with
    | FormFieldOptions.email =>
        if field.value.length = 0 then "Please provide an email"
        else if ie field.value = false then
          jsStringOr field.validation.customError "Please provide a valid email"
        else ""
    | FormFieldOptions.password =>
        if isLength field.value 6 128 then ""
        else jsStringOr field.validation.customError
          "Please provide a password of at least 6 characters"
    | FormFieldOptions.passwordConfirmation =>
        if (getEntry formState "password").map Field.value ≠ some field.value then
          jsStringOr field.validation.customError "Passwords do not match"
        else ""
    | FormFieldOptions.firstName =>
        if field.value.length = 0 then
          jsStringOr field.validation.customError "Please provide a first name."
        else if matchOnePlusStar isAlphaChar firstNameClass field.value = false then
          jsStringOr field.validation.customError computeError.firstNamePatternMsg
        else ""
    | FormFieldOptions.lastName =>
        if field.value.length = 0 then
          jsStringOr field.validation.customError "Please provide a last name."
        else if matchOnePlusStar isAlphaChar lastNameClass field.value = false then
          jsStringOr field.validation.customError computeError.lastNamePatternMsg
        else ""
    | FormFieldOptions.none => ""

/-- A non-optional email field with empty value, for concrete instances. -/
def exEmailField : Field :=
  Field.mk false "" (Validation.mk FormFieldOptions.email Option.none false)

/-- A one-field example configuration used to instantiate the theorems. -/
def exInit : FieldsT := [("email", exEmailField)]

/-- An optional email field holding a non-email value. -/
def exOptField : Field :=
  Field.mk false "not-an-email" (Validation.mk FormFieldOptions.email Option.none true)

/-- A store holding only the optional field. -/
def exOptStore : FieldsT := [("nickname", exOptField)]

/-- A password field with value `"secret1"`. -/
def exPwField : Field :=
  Field.mk false "secret1" (Validation.mk FormFieldOptions.password Option.none false)

/-- A confirmation field whose value disagrees with the password. -/
def exConfField : Field :=
  Field.mk false "secret2"
    (Validation.mk FormFieldOptions.passwordConfirmation Option.none false)

/-- A store with a password field and a mismatched confirmation field. -/
def exPwStore : FieldsT := [("password", exPwField), ("confirmPassword", exConfField)]

/-- A single-letter first-name field, for the regex-variant claim. -/
def exLetterField : Field :=
  Field.mk false "J" (Validation.mk FormFieldOptions.firstName Option.none false)

/-- A non-optional email field already holding a well-formed address. -/
def exFilledEmailField : Field :=
  Field.mk false "a@b.com" (Validation.mk FormFieldOptions.email Option.none false)

/-- A store holding only the filled email field. -/
def exFilledEmailStore : FieldsT := [("email", exFilledEmailField)]

/-- A concrete stand-in for the external email check, accepting exactly
the example address. -/
def exIsEmail : String → Bool := fun s => s == "a@b.com"

/-- A password field whose value is too short. -/
def exShortPwField : Field :=
  Field.mk false "abc" (Validation.mk FormFieldOptions.password Option.none false)

/-- A store holding only the short password field. -/
def exShortPwStore : FieldsT := [("password", exShortPwField)]

/-! ### Association-list store lemmas -/

theorem getEntry_setEntry_self {α : Type} (es : List (String × α)) (k : String) (v : α) :
    getEntry (setEntry es k v) k = some v := by
  induction es with
  | nil => simp [setEntry, getEntry]
  | cons p rest ih =>
    by_cases h : p.1 = k
    · simp [setEntry, h, getEntry]
    · simp [setEntry, h, getEntry, ih]

theorem getEntry_setEntry_ne {α : Type} (es : List (String × α)) (v : α) {k k' : String}
    (h : k' ≠ k) : getEntry (setEntry es k v) k' = getEntry es k' := by
  induction es with
  | nil => simp [setEntry, getEntry, Ne.symm h]
  | cons p rest ih =>
    by_cases hp : p.1 = k
    · have hp' : p.1 ≠ k' := by rw [hp]; exact Ne.symm h
      simp [setEntry, hp, getEntry, hp', Ne.symm h]
    · simp [setEntry, hp, getEntry, ih]

theorem mem_keys_of_mem {α : Type} {l : List (String × α)} {k : String} {v : α}
    (h : (k, v) ∈ l) : k ∈ l.map Prod.fst :=
  List.mem_map_of_mem Prod.fst h

theorem getEntry_eq_some_of_mem {α : Type} {l : List (String × α)} {k : String} {v : α}
    (hnd : (l.map Prod.fst).Nodup) (h : (k, v) ∈ l) :
    getEntry l k = some v := by
  induction l with
  | nil => cases h
  | cons p rest ih =>
    rw [List.map_cons, List.nodup_cons] at hnd
    rcases List.mem_cons.mp h with h1 | h1
    · rw [← h1]
      simp [getEntry]
    · have hp : p.1 ≠ k := fun he => hnd.1 (he ▸ mem_keys_of_mem h1)
      simp [getEntry, hp, ih hnd.2 h1]

theorem mem_of_getEntry_eq_some {α : Type} {l : List (String × α)} {k : String} {v : α}
    (h : getEntry l k = some v) : (k, v) ∈ l := by
  induction l with
  | nil => simp [getEntry] at h
  | cons p rest ih =>
    obtain ⟨a, b⟩ := p
    by_cases ha : a = k
    · simp [getEntry, ha] at h
      rw [← ha, ← h]
      exact List.mem_cons_self _ _
    · simp [getEntry, ha] at h
      exact List.mem_cons_of_mem _ (ih h)

theorem exists_getEntry_of_mem_keys {α : Type} {l : List (String × α)} {k : String}
    (h : k ∈ l.map Prod.fst) : ∃ v, getEntry l k = some v := by
  induction l with
  | nil => simp at h
  | cons p rest ih =>
    obtain ⟨a, b⟩ := p
    by_cases ha : a = k
    · exact ⟨b, by simp [getEntry, ha]⟩
    · rw [List.map_cons, List.mem_cons] at h
      rcases h with h1 | h1
      · exact absurd h1.symm ha
      · obtain ⟨v, hv⟩ := ih h1
        exact ⟨v, by simp [getEntry, ha, hv]⟩

theorem keys_setEntry_of_mem {α : Type} {l : List (String × α)} {k : String} (v : α)
    (h : k ∈ l.map Prod.fst) : (setEntry l k v).map Prod.fst = l.map Prod.fst := by
  induction l with
  | nil => simp at h
  | cons p rest ih =>
    obtain ⟨a, b⟩ := p
    by_cases ha : a = k
    · simp [setEntry, ha]
    · rw [List.map_cons, List.mem_cons] at h
      rcases h with h1 | h1
      · exact absurd h1.symm ha
      · simp [setEntry, ha, ih h1]

theorem keys_mapEntry (l : List (String × Field)) (k : String) (g : Field → Field) :
    (mapEntry l k g).map Prod.fst = l.map Prod.fst := by
  induction l with
  | nil => rfl
  | cons p rest ih =>
    obtain ⟨a, b⟩ := p
    by_cases ha : a = k
    · simp [mapEntry, ha]
    · simp [mapEntry, ha, ih]

theorem getEntry_mapEntry_self {l : List (String × Field)} {k : String} {f : Field}
    (g : Field → Field) (h : getEntry l k = some f) :
    getEntry (mapEntry l k g) k = some (g f) := by
  induction l with
  | nil => simp [getEntry] at h
  | cons p rest ih =>
    obtain ⟨a, b⟩ := p
    by_cases ha : a = k
    · simp [getEntry, ha] at h
      simp [mapEntry, ha, getEntry, h]
    · simp [getEntry, ha] at h
      simp [mapEntry, ha, getEntry, ih h]

theorem getEntry_mapEntry_ne (l : List (String × Field)) (k : String) (g : Field → Field)
    {k' : String} (h : k' ≠ k) : getEntry (mapEntry l k g) k' = getEntry l k' := by
  induction l with
  | nil => rfl
  | cons p rest ih =>
    obtain ⟨a, b⟩ := p
    by_cases ha : a = k
    · have ha' : a ≠ k' := by rw [ha]; exact Ne.symm h
      simp [mapEntry, ha, getEntry, ha', Ne.symm h]
    · simp [mapEntry, ha, getEntry, ih]

/-! ### Validation-pass lemmas -/

theorem errorsReducer_update (es : ErrorsT) (k v e : String) :
    errorsReducer es ⟨"UPDATE_ERROR", k, v, e⟩ = setEntry es k e := by
  simp [errorsReducer]

theorem getEntry_validateAux_not_mem (ie : String → Bool) (fs : FieldsT)
    {l : List (String × Field)} {k : String} (es : ErrorsT) (h : k ∉ l.map Prod.fst) :
    getEntry (validateAux ie fs l es) k = getEntry es k := by
  induction l generalizing es with
  | nil => rfl
  | cons p rest ih =>
    rw [List.map_cons] at h
    have h1 : k ∉ rest.map Prod.fst := fun hm => h (List.mem_cons_of_mem _ hm)
    have h2 : k ≠ p.1 := fun he => h (he ▸ List.mem_cons_self _ _)
    rw [validateAux, errorsReducer_update, ih _ h1, getEntry_setEntry_ne _ _ h2]

theorem getEntry_validateAux_mem (ie : String → Bool) (fs : FieldsT)
    {l : List (String × Field)} {k : String} {f : Field} (es : ErrorsT)
    (hnd : (l.map Prod.fst).Nodup) (h : (k, f) ∈ l) :
    getEntry (validateAux ie fs l es) k = some (computeError ie fs f) := by
  induction l generalizing es with
  | nil => cases h
  | cons p rest ih =>
    obtain ⟨a, b⟩ := p
    rw [List.map_cons, List.nodup_cons] at hnd
    rw [validateAux, errorsReducer_update]
    rcases List.mem_cons.mp h with h1 | h1
    · obtain ⟨hk, hf⟩ := Prod.mk.injEq .. ▸ h1
      subst hk
      subst hf
      rw [getEntry_validateAux_not_mem ie fs _ hnd.1, getEntry_setEntry_self]
    · exact ih _ hnd.2 h1

theorem keys_validateAux (ie : String → Bool) (fs : FieldsT) {l : List (String × Field)}
    {es : ErrorsT} (h : ∀ p ∈ l, p.1 ∈ es.map Prod.fst) :
    (validateAux ie fs l es).map Prod.fst = es.map Prod.fst := by
  induction l generalizing es with
  | nil => rfl
  | cons p rest ih =>
    rw [validateAux, errorsReducer_update]
    have h0 : p.1 ∈ es.map Prod.fst := h p (List.mem_cons_self _ _)
    have hkeys := keys_setEntry_of_mem (α := String) (computeError ie fs p.2) h0
    rw [ih fun q hq => hkeys ▸ h q (List.mem_cons_of_mem _ hq), hkeys]

theorem keys_fieldsReducer (fs : FieldsT) (a : RawAction) :
    (fieldsReducer fs a).map Prod.fst = fs.map Prod.fst := by
  by_cases h1 : a.type = "UPDATE_VALUE"
  · simp [fieldsReducer, h1, keys_mapEntry]
  · by_cases h2 : a.type = "BLUR_INPUT"
    · simp [fieldsReducer, h1, h2, keys_mapEntry]
    · simp [fieldsReducer, h1, h2]

/-! ### Reachability invariants -/

theorem reachable_keys {ie : String → Bool} {init : FieldsT} {s : HookState}
    (h : Reachable ie init s) :
    s.formState.map Prod.fst = init.map Prod.fst ∧
    s.errorState.map Prod.fst = init.map Prod.fst := by
  induction h with
  | base =>
    refine ⟨rfl, ?_⟩
    show (init.map fun p => (p.1, "")).map Prod.fst = init.map Prod.fst
    rw [List.map_map]
    rfl
  | step s a _ ih =>
    obtain ⟨ihf, ihe⟩ := ih
    constructor
    · show (fieldsReducer s.formState a).map Prod.fst = init.map Prod.fst
      rw [keys_fieldsReducer, ihf]
    · show (validate ie (fieldsReducer s.formState a) s.errorState).map Prod.fst =
        init.map Prod.fst
      have hcond : ∀ p ∈ fieldsReducer s.formState a, p.1 ∈ s.errorState.map Prod.fst := by
        intro p hp
        rw [ihe, ← ihf, ← keys_fieldsReducer s.formState a]
        exact List.mem_map_of_mem Prod.fst hp
      rw [validate, keys_validateAux ie _ hcond, ihe]

/-! ### Branch computations of the validation pass -/

theorem string_length_eq_zero_iff (s : String) : s.length = 0 ↔ s = "" := by
  constructor
  · intro h
    cases s with
    | mk l =>
      cases l with
      | nil => rfl
      | cons c t => simp [String.length] at h
  · intro h
    subst h
    rfl

theorem jsStringOr_ne_empty (c : Option String) {d : String} (hd : d ≠ "") :
    jsStringOr c d ≠ "" := by
  cases c with
  | none => exact hd
  | some s =>
    by_cases hs : s = ""
    · simpa [jsStringOr, hs] using hd
    · simp [jsStringOr, hs]

theorem computeError_optional (ie : String → Bool) (fs : FieldsT) (f : Field)
    (h : f.validation.optional = true) : computeError ie fs f = "" := by
  simp [computeError, h]

theorem computeError_email (ie : String → Bool) (fs : FieldsT) (f : Field)
    (hopt : f.validation.optional = false)
    (hty : f.validation.type = FormFieldOptions.email) :
    computeError ie fs f =
      if f.value.length = 0 then "Please provide an email"
      else if ie f.value = false then
        jsStringOr f.validation.customError "Please provide a valid email"
      else "" := by
  obtain ⟨fb, fv, fval⟩ := f
  obtain ⟨fty, fce, fopt⟩ := fval
  have h1 : fopt = false := hopt
  have h2 : fty = FormFieldOptions.email := hty
  subst h1 h2
  simp [computeError]

theorem computeError_password (ie : String → Bool) (fs : FieldsT) (f : Field)
    (hopt : f.validation.optional = false)
    (hty : f.validation.type = FormFieldOptions.password) :
    computeError ie fs f =
      if isLength f.value 6 128 then ""
      else jsStringOr f.validation.customError
        "Please provide a password of at least 6 characters" := by
  obtain ⟨fb, fv, fval⟩ := f
  obtain ⟨fty, fce, fopt⟩ := fval
  have h1 : fopt = false := hopt
  have h2 : fty = FormFieldOptions.password := hty
  subst h1 h2
  simp [computeError]

theorem computeError_passwordConfirmation (ie : String → Bool) (fs : FieldsT) (f : Field)
    (hopt : f.validation.optional = false)
    (hty : f.validation.type = FormFieldOptions.passwordConfirmation) :
    computeError ie fs f =
      if (getEntry fs "password").map Field.value ≠ some f.value then
        jsStringOr f.validation.customError "Passwords do not match"
      else "" := by
  obtain ⟨fb, fv, fval⟩ := f
  obtain ⟨fty, fce, fopt⟩ := fval
  have h1 : fopt = false := hopt
  have h2 : fty = FormFieldOptions.passwordConfirmation := hty
  subst h1 h2
  simp [computeError]

theorem computeError_firstName (ie : String → Bool) (fs : FieldsT) (f : Field)
    (hopt : f.validation.optional = false)
    (hty : f.validation.type = FormFieldOptions.firstName) :
    computeError ie fs f =
      if f.value.length = 0 then
        jsStringOr f.validation.customError "Please provide a first name."
      else if matchOnePlusOnePlus isAlphaChar firstNameClass f.value = false then
        jsStringOr f.validation.customError computeError.firstNamePatternMsg
      else "" := by
  obtain ⟨fb, fv, fval⟩ := f
  obtain ⟨fty, fce, fopt⟩ := fval
  have h1 : fopt = false := hopt
  have h2 : fty = FormFieldOptions.firstName := hty
  subst h1 h2
  simp [computeError]

theorem computeError_lastName (ie : String → Bool) (fs : FieldsT) (f : Field)
    (hopt : f.validation.optional = false)
    (hty : f.validation.type = FormFieldOptions.lastName) :
    computeError ie fs f =
      if f.value.length = 0 then
        jsStringOr f.validation.customError "Please provide a last name."
      else if matchOnePlusOnePlus isAlphaChar lastNameClass f.value = false then
        jsStringOr f.validation.customError computeError.lastNamePatternMsg
      else "" := by
  obtain ⟨fb, fv, fval⟩ := f
  obtain ⟨fty, fce, fopt⟩ := fval
  have h1 : fopt = false := hopt
  have h2 : fty = FormFieldOptions.lastName := hty
  subst h1 h2
  simp [computeError]

theorem computeErrorV_firstName (ie : String → Bool) (fs : FieldsT) (f : Field)
    (hopt : f.validation.optional = false)
    (hty : f.validation.type = FormFieldOptions.firstName) :
    computeErrorV ie fs f =
      if f.value.length = 0 then
        jsStringOr f.validation.customError "Please provide a first name."
      else if matchOnePlusStar isAlphaChar firstNameClass f.value = false then
        jsStringOr f.validation.customError computeError.firstNamePatternMsg
      else "" := by
  obtain ⟨fb, fv, fval⟩ := f
  obtain ⟨fty, fce, fopt⟩ := fval
  have h1 : fopt = false := hopt
  have h2 : fty = FormFieldOptions.firstName := hty
  subst h1 h2
  simp [computeErrorV]

theorem computeErrorV_lastName (ie : String → Bool) (fs : FieldsT) (f : Field)
    (hopt : f.validation.optional = false)
    (hty : f.validation.type = FormFieldOptions.lastName) :
    computeErrorV ie fs f =
      if f.value.length = 0 then
        jsStringOr f.validation.customError "Please provide a last name."
      else if matchOnePlusStar isAlphaChar lastNameClass f.value = false then
        jsStringOr f.validation.customError computeError.lastNamePatternMsg
      else "" := by
  obtain ⟨fb, fv, fval⟩ := f
  obtain ⟨fty, fce, fopt⟩ := fval
  have h1 : fopt = false := hopt
  have h2 : fty = FormFieldOptions.lastName := hty
  subst h1 h2
  simp [computeErrorV]

theorem optionalOf_eq_of_getEntry {fs : FieldsT} {k : String} {f : Field}
    (h : getEntry fs k = some f) : optionalOf fs k = f.validation.optional := by
  unfold optionalOf
  rw [h]

/-! ### The claimed properties -/

/-- C1: In every reachable hook state, the derived `formInvalid` boolean
is true if and only if there exists a field key whose error-store entry
is a non-empty string and whose field-store `validation.optional` flag is
not true; in particular, when no non-optional field has a non-empty error
entry, `formInvalid` is false. -/
theorem formInvalid_iff_exists_nonoptional_error (ie : String → Bool) (init : FieldsT)
    (s : HookState) (hnd : (init.map Prod.fst).Nodup) (h : Reachable ie init s) :
    formInvalid s.formState s.errorState = true ↔
      ∃ k e f, getEntry s.errorState k = some e ∧ e ≠ "" ∧
        getEntry s.formState k = some f ∧ f.validation.optional = false := by
  obtain ⟨hf, he⟩ := reachable_keys h
  have hnde : (s.errorState.map Prod.fst).Nodup := by
    rw [he]
    exact hnd
  constructor
  · intro hi
    rw [formInvalid, List.any_eq_true] at hi
    obtain ⟨p, hp, hpred⟩ := hi
    obtain ⟨k, e⟩ := p
    simp only [bne_iff_ne, Bool.and_eq_true, Bool.not_eq_true'] at hpred
    obtain ⟨hene, hoptf⟩ := hpred
    have hek : getEntry s.errorState k = some e := getEntry_eq_some_of_mem hnde hp
    have hkk : k ∈ s.formState.map Prod.fst := by
      rw [hf, ← he]
      exact mem_keys_of_mem hp
    obtain ⟨f, hfk⟩ := exists_getEntry_of_mem_keys hkk
    refine ⟨k, e, f, hek, hene, hfk, ?_⟩
    rw [← optionalOf_eq_of_getEntry hfk]
    exact hoptf
  · rintro ⟨k, e, f, hek, hene, hfk, hfopt⟩
    rw [formInvalid, List.any_eq_true]
    refine ⟨(k, e), mem_of_getEntry_eq_some hek, ?_⟩
    simp only [bne_iff_ne, Bool.and_eq_true, Bool.not_eq_true']
    exact ⟨hene, by rw [optionalOf_eq_of_getEntry hfk]; exact hfopt⟩

/-- Witness for C1 at the freshly initialized one-email-field form. -/
theorem formInvalid_iff_witness :
    formInvalid exInit (initErrors exInit) = true ↔
      ∃ k e f, getEntry (initErrors exInit) k = some e ∧ e ≠ "" ∧
        getEntry exInit k = some f ∧ f.validation.optional = false :=
  formInvalid_iff_exists_nonoptional_error (fun _ => false) exInit
    (HookState.mk exInit (initErrors exInit)) (by decide) Reachable.base

/-- C2: A field whose `validation.optional` flag is true has the empty
string as its error-store entry after any validation pass, regardless of
its value and of its `validation.type`. -/
theorem optional_field_error_empty_after_validate (ie : String → Bool) (fs : FieldsT)
    (es : ErrorsT) (k : String) (f : Field) (hnd : (fs.map Prod.fst).Nodup)
    (hmem : (k, f) ∈ fs) (hopt : f.validation.optional = true) :
    getEntry (validate ie fs es) k = some "" := by
  have hv : getEntry (validate ie fs es) k = some (computeError ie fs f) :=
    getEntry_validateAux_mem ie fs es hnd hmem
  rw [hv, computeError_optional ie fs f hopt]

/-- Witness for C2: an optional email field holding a non-email value. -/
theorem optional_field_error_empty_witness :
    getEntry (validate (fun _ => false) exOptStore []) "nickname" = some "" :=
  optional_field_error_empty_after_validate (fun _ => false) exOptStore [] "nickname"
    exOptField (by decide) (by decide) rfl

/-- C7: In every reachable hook state the field store and the error store
have exactly the same keys: the error store starts with one empty entry
per initial field key and every `UPDATE_ERROR` issued by the validation
pass targets a key of the field store. -/
theorem reachable_key_sets_equal (ie : String → Bool) (init : FieldsT) (s : HookState)
    (h : Reachable ie init s) :
    s.formState.map Prod.fst = s.errorState.map Prod.fst := by
  obtain ⟨h1, h2⟩ := reachable_keys h
  rw [h1, h2]

/-- Witness for C7 at the freshly initialized one-email-field form. -/
theorem reachable_key_sets_equal_witness :
    (HookState.mk exInit (initErrors exInit)).formState.map Prod.fst =
      (HookState.mk exInit (initErrors exInit)).errorState.map Prod.fst :=
  reachable_key_sets_equal (fun _ => false) exInit
    (HookState.mk exInit (initErrors exInit)) Reachable.base

/-- C9: An action whose type tag is none of the recognized kinds leaves
both the field store and the error store unchanged: both reducers fall
through their `switch` to the identity default. -/
theorem unrecognized_action_identity (fs : FieldsT) (es : ErrorsT) (a : RawAction)
    (h1 : a.type ≠ "UPDATE_VALUE") (h2 : a.type ≠ "BLUR_INPUT")
    (h3 : a.type ≠ "UPDATE_ERROR") :
    fieldsReducer fs a = fs ∧ errorsReducer es a = es := by
  constructor
  · simp [fieldsReducer, h1, h2]
  · simp [errorsReducer, h3]

/-- Witness for C9: a `RESET` action is ignored by both reducers. -/
theorem unrecognized_action_identity_witness :
    fieldsReducer exInit (RawAction.mk "RESET" "email" "x" "y") = exInit ∧
    errorsReducer (initErrors exInit) (RawAction.mk "RESET" "email" "x" "y") =
      initErrors exInit :=
  unrecognized_action_identity exInit (initErrors exInit)
    (RawAction.mk "RESET" "email" "x" "y") (by decide) (by decide) (by decide)

/-- C3: For a non-optional `passwordConfirmation` field, the validation
pass writes the empty string when its value equals the current value of
the field keyed exactly `"password"`, and the custom-or-default mismatch
error when the values differ; when no `"password"` field exists, the
non-empty mismatch error is always assigned. -/
theorem passwordConfirmation_validation (ie : String → Bool) (fs : FieldsT) (es : ErrorsT)
    (k : String) (f : Field) (hnd : (fs.map Prod.fst).Nodup) (hmem : (k, f) ∈ fs)
    (hopt : f.validation.optional = false)
    (hty : f.validation.type = FormFieldOptions.passwordConfirmation) :
    (∀ pw, getEntry fs "password" = some pw → pw.value = f.value →
       getEntry (validate ie fs es) k = some "") ∧
    (∀ pw, getEntry fs "password" = some pw → pw.value ≠ f.value →
       getEntry (validate ie fs es) k =
         some (jsStringOr f.validation.customError "Passwords do not match") ∧
       jsStringOr f.validation.customError "Passwords do not match" ≠ "") ∧
    (getEntry fs "password" = Option.none →
       getEntry (validate ie fs es) k =
         some (jsStringOr f.validation.customError "Passwords do not match") ∧
       jsStringOr f.validation.customError "Passwords do not match" ≠ "") := by
  have hv : getEntry (validate ie fs es) k = some (computeError ie fs f) :=
    getEntry_validateAux_mem ie fs es hnd hmem
  have hce := computeError_passwordConfirmation ie fs f hopt hty
  refine ⟨?_, ?_, ?_⟩
  · intro pw hpw hval
    rw [hv, hce, hpw]
    simp [hval]
  · intro pw hpw hval
    refine ⟨?_, jsStringOr_ne_empty _ (by decide)⟩
    rw [hv, hce, hpw]
    simp [hval]
  · intro hpw
    refine ⟨?_, jsStringOr_ne_empty _ (by decide)⟩
    rw [hv, hce, hpw]
    simp

/-- Witness for C3: confirmation `"secret2"` against password `"secret1"`
yields the default mismatch error. -/
theorem passwordConfirmation_validation_witness :
    getEntry (validate (fun _ => false) exPwStore (initErrors exPwStore))
        "confirmPassword" = some "Passwords do not match" ∧
    ("Passwords do not match" : String) ≠ "" :=
  (passwordConfirmation_validation (fun _ => false) exPwStore (initErrors exPwStore)
      "confirmPassword" exConfField (by decide) (by decide) rfl rfl).2.1
    exPwField (by decide) (by decide)

/-- C4: For a non-optional `email` field the validation pass writes the
specific emptiness message on an empty value, the custom-or-default
format error when the email check rejects a non-empty value, and the
empty string when the check accepts it. -/
theorem email_validation (ie : String → Bool) (fs : FieldsT) (es : ErrorsT) (k : String)
    (f : Field) (hnd : (fs.map Prod.fst).Nodup) (hmem : (k, f) ∈ fs)
    (hopt : f.validation.optional = false)
    (hty : f.validation.type = FormFieldOptions.email) :
    (f.value = "" → getEntry (validate ie fs es) k = some "Please provide an email") ∧
    (f.value ≠ "" → ie f.value = false →
       getEntry (validate ie fs es) k =
         some (jsStringOr f.validation.customError "Please provide a valid email") ∧
       jsStringOr f.validation.customError "Please provide a valid email" ≠ "") ∧
    (f.value ≠ "" → ie f.value = true → getEntry (validate ie fs es) k = some "") := by
  have hv : getEntry (validate ie fs es) k = some (computeError ie fs f) :=
    getEntry_validateAux_mem ie fs es hnd hmem
  have hce := computeError_email ie fs f hopt hty
  refine ⟨?_, ?_, ?_⟩
  · intro hval
    have hlen : f.value.length = 0 := by rw [hval]; rfl
    rw [hv, hce, if_pos hlen]
  · intro hval hie
    have hlen : ¬ f.value.length = 0 :=
      fun hh => hval ((string_length_eq_zero_iff _).mp hh)
    refine ⟨?_, jsStringOr_ne_empty _ (by decide)⟩
    rw [hv, hce, if_neg hlen, if_pos hie]
  · intro hval hie
    have hlen : ¬ f.value.length = 0 :=
      fun hh => hval ((string_length_eq_zero_iff _).mp hh)
    rw [hv, hce, if_neg hlen, if_neg (by simp [hie])]

/-- Witness for C4: `"a@b.com"` passes the example email check and the
error entry is cleared. -/
theorem email_validation_witness :
    getEntry (validate exIsEmail exFilledEmailStore (initErrors exFilledEmailStore))
        "email" = some "" :=
  (email_validation exIsEmail exFilledEmailStore (initErrors exFilledEmailStore) "email"
      exFilledEmailField (by decide) (by decide) rfl rfl).2.2 (by decide) (by decide)

/-- C5: For a non-optional `password` field the validation pass writes
the empty string exactly when the value length lies in `[6, 128]`, and
otherwise the custom-or-default length error; there is no separate
emptiness-specific message. -/
theorem password_validation (ie : String → Bool) (fs : FieldsT) (es : ErrorsT) (k : String)
    (f : Field) (hnd : (fs.map Prod.fst).Nodup) (hmem : (k, f) ∈ fs)
    (hopt : f.validation.optional = false)
    (hty : f.validation.type = FormFieldOptions.password) :
    (getEntry (validate ie fs es) k = some "" ↔
       6 ≤ f.value.length ∧ f.value.length ≤ 128) ∧
    (¬(6 ≤ f.value.length ∧ f.value.length ≤ 128) →
       getEntry (validate ie fs es) k =
         some (jsStringOr f.validation.customError
           "Please provide a password of at least 6 characters")) := by
  have hv : getEntry (validate ie fs es) k = some (computeError ie fs f) :=
    getEntry_validateAux_mem ie fs es hnd hmem
  have hce := computeError_password ie fs f hopt hty
  by_cases hl : 6 ≤ f.value.length ∧ f.value.length ≤ 128
  · have hL : isLength f.value 6 128 = true := by
      simp only [isLength]
      exact decide_eq_true hl
    rw [hv, hce, if_pos hL]
    exact ⟨iff_of_true rfl hl, fun hcon => absurd hl hcon⟩
  · have hL : ¬ isLength f.value 6 128 = true := by
      simp only [isLength, decide_eq_true_eq]
      exact hl
    rw [hv, hce, if_neg hL]
    refine ⟨iff_of_false ?_ hl, fun _ => rfl⟩
    intro hh
    exact jsStringOr_ne_empty f.validation.customError (by decide) (Option.some.inj hh)

/-- Witness for C5: the three-character password `"abc"` yields the
default length error. -/
theorem password_validation_witness :
    getEntry (validate (fun _ => false) exShortPwStore (initErrors exShortPwStore))
        "password" = some "Please provide a password of at least 6 characters" :=
  (password_validation (fun _ => false) exShortPwStore (initErrors exShortPwStore)
      "password" exShortPwField (by decide) (by decide) rfl rfl).2 (by decide)

/-- C6: `UPDATE_VALUE` replaces the addressed field's value with the
whitespace-trimmed dispatched value while leaving its `blurred` and
`validation` attributes, every other field, and the key list unchanged. -/
theorem update_value_trims_and_frames (fs : FieldsT) (k v : String) :
    (∀ f, getEntry fs k = some f →
       getEntry (fieldsReducer fs (RawAction.mk "UPDATE_VALUE" k v "")) k =
         some (Field.mk f.blurred (strTrim v) f.validation)) ∧
    (∀ k', k' ≠ k →
       getEntry (fieldsReducer fs (RawAction.mk "UPDATE_VALUE" k v "")) k' =
         getEntry fs k') ∧
    (fieldsReducer fs (RawAction.mk "UPDATE_VALUE" k v "")).map Prod.fst =
      fs.map Prod.fst := by
  have hred : fieldsReducer fs (RawAction.mk "UPDATE_VALUE" k v "") =
      mapEntry fs k (fun f => { f with value := strTrim v }) := by
    simp [fieldsReducer]
  refine ⟨?_, ?_, ?_⟩
  · intro f hf
    rw [hred]
    exact getEntry_mapEntry_self _ hf
  · intro k' hk
    rw [hred]
    exact getEntry_mapEntry_ne _ _ _ hk
  · rw [hred, keys_mapEntry]

/-- Witness for C6: dispatching `"  a@b.com  "` stores `"a@b.com"`. -/
theorem update_value_trims_witness :
    getEntry (fieldsReducer exInit (RawAction.mk "UPDATE_VALUE" "email" "  a@b.com  " ""))
        "email" =
      some (Field.mk false "a@b.com"
        (Validation.mk FormFieldOptions.email Option.none false)) := by
  have h := (update_value_trims_and_frames exInit "email" "  a@b.com  ").1 exEmailField
    (by decide)
  rw [h]
  decide

/-- C8: `BLUR_INPUT` sets the addressed field's `blurred` attribute to
true while leaving its `value` and `validation` attributes, every other
field, and the key list unchanged. -/
theorem blur_input_sets_blurred_and_frames (fs : FieldsT) (k : String) :
    (∀ f, getEntry fs k = some f →
       getEntry (fieldsReducer fs (RawAction.mk "BLUR_INPUT" k "" "")) k =
         some (Field.mk true f.value f.validation)) ∧
    (∀ k', k' ≠ k →
       getEntry (fieldsReducer fs (RawAction.mk "BLUR_INPUT" k "" "")) k' =
         getEntry fs k') ∧
    (fieldsReducer fs (RawAction.mk "BLUR_INPUT" k "" "")).map Prod.fst =
      fs.map Prod.fst := by
  have hred : fieldsReducer fs (RawAction.mk "BLUR_INPUT" k "" "") =
      mapEntry fs k (fun f => { f with blurred := true }) := by
    simp [fieldsReducer]
  refine ⟨?_, ?_, ?_⟩
  · intro f hf
    rw [hred]
    exact getEntry_mapEntry_self _ hf
  · intro k' hk
    rw [hred]
    exact getEntry_mapEntry_ne _ _ _ hk
  · rw [hred, keys_mapEntry]

/-- Witness for C8 on the one-email-field store. -/
theorem blur_input_witness :
    getEntry (fieldsReducer exInit (RawAction.mk "BLUR_INPUT" "email" "" "")) "email" =
      some (Field.mk true ""
        (Validation.mk FormFieldOptions.email Option.none false)) := by
  have h := (blur_input_sets_blurred_and_frames exInit "email").1 exEmailField (by decide)
  rw [h]
  decide

/-- A one-character string never matches the `C1+C2+` shape: both parts
need at least one character. -/
theorem matchOnePlusOnePlus_singleton (c1 c2 : Char → Bool) (c : Char) :
    matchOnePlusOnePlus c1 c2 (String.mk [c]) = false := by
  simp [matchOnePlusOnePlus, List.range_succ]

/-- A one-character string in `C1` matches the `C1+C2*` shape. -/
theorem matchOnePlusStar_singleton (c1 c2 : Char → Bool) (c : Char) (hc : c1 c = true) :
    matchOnePlusStar c1 c2 (String.mk [c]) = true := by
  simp [matchOnePlusStar, List.range_succ, hc]

/-- C10: A non-optional `firstName` or `lastName` field whose value is a
single letter is assigned the non-empty pattern error by the src/index.ts
validation pass (the `+`-quantified trailing class needs a character
after the initial letter run), while the src/unnamed/part_000 variant
(`*`-quantified) accepts it. -/
theorem single_letter_name_rejected_in_index_variant (ie : String → Bool) (fs : FieldsT)
    (f : Field) (c : Char) (hopt : f.validation.optional = false)
    (hty : f.validation.type = FormFieldOptions.firstName ∨
      f.validation.type = FormFieldOptions.lastName)
    (hval : f.value = String.mk [c]) (hc : isAlphaChar c = true) :
    computeError ie fs f ≠ "" ∧
    (f.validation.type = FormFieldOptions.firstName →
       computeError ie fs f =
         jsStringOr f.validation.customError computeError.firstNamePatternMsg) ∧
    (f.validation.type = FormFieldOptions.lastName →
       computeError ie fs f =
         jsStringOr f.validation.customError computeError.lastNamePatternMsg) ∧
    computeErrorV ie fs f = "" := by
  have hlen0 : ¬ f.value.length = 0 := by
    rw [hval]
    simp [String.length]
  rcases hty with hty | hty
  · have hce := computeError_firstName ie fs f hopt hty
    have hceV := computeErrorV_firstName ie fs f hopt hty
    have hm : matchOnePlusOnePlus isAlphaChar firstNameClass f.value = false := by
      rw [hval]
      exact matchOnePlusOnePlus_singleton _ _ _
    have hmV : matchOnePlusStar isAlphaChar firstNameClass f.value = true := by
      rw [hval]
      exact matchOnePlusStar_singleton _ _ _ hc
    refine ⟨?_, ?_, ?_, ?_⟩
    · rw [hce, if_neg hlen0, if_pos hm]
      exact jsStringOr_ne_empty _ (by decide)
    · intro _
      rw [hce, if_neg hlen0, if_pos hm]
    · intro hcon
      rw [hty] at hcon
      exact absurd hcon (by decide)
    · rw [hceV, if_neg hlen0, if_neg (by simp [hmV])]
  · have hce := computeError_lastName ie fs f hopt hty
    have hceV := computeErrorV_lastName ie fs f hopt hty
    have hm : matchOnePlusOnePlus isAlphaChar lastNameClass f.value = false := by
      rw [hval]
      exact matchOnePlusOnePlus_singleton _ _ _
    have hmV : matchOnePlusStar isAlphaChar lastNameClass f.value = true := by
      rw [hval]
      exact matchOnePlusStar_singleton _ _ _ (by simp [lastNameClass, firstNameClass, hc])
    refine ⟨?_, ?_, ?_, ?_⟩
    · rw [hce, if_neg hlen0, if_pos hm]
      exact jsStringOr_ne_empty _ (by decide)
    · intro hcon
      rw [hty] at hcon
      exact absurd hcon (by decide)
    · intro _
      rw [hce, if_neg hlen0, if_pos hm]
    · rw [hceV, if_neg hlen0, if_neg (by simp [hmV])]

/-- Witness for C10: the one-letter first name `"J"`. -/
theorem single_letter_name_witness :
    computeError (fun _ => false) [] exLetterField ≠ "" ∧
    computeErrorV (fun _ => false) [] exLetterField = "" := by
  have h := single_letter_name_rejected_in_index_variant (fun _ => false) [] exLetterField
    'J' rfl (Or.inl rfl) rfl (by decide)
  exact ⟨h.1, h.2.2.2⟩

end UseForm
